import Mathlib

/-!
Verification of the dataflow-graph core of the olive node-based compositor:
the parameter/edge connection protocol (`src/app/node/param.cpp`), its data
type compatibility rules, persistence encoding, and the decoder probing
helper (`src/app/decoder/decoder.cpp`).

Machine integers and rational times are modelled as `Int`; parameters,
nodes, graphs and edge handles are identified by natural numbers.  Shared
`NodeEdgePtr` identity is modelled by an arena of edge handles allocated
from a counter, so pointer equality becomes handle equality.
-/

namespace Olive

/-- The `NodeParam::DataType` enumeration, as enumerated by the exhaustive
switch in `NodeParam::GetDefaultDataTypeName` (param.cpp). -/
inductive DataType where
  | kNone
  | kInt
  | kFloat
  | kColor
  | kString
  | kBoolean
  | kFont
  | kFile
  | kTexture
  | kMatrix
  | kBlock
  | kFootage
  | kTrack
  | kRational
  | kVec2
  | kVec3
  | kVec4
  | kAny
  deriving DecidableEq, Repr, Fintype

/-- The pairwise overload `NodeParam::AreDataTypesCompatible(output_type,
input_type)` (param.cpp lines 103-123): equal types first, then the
`kNone` rejection, then the `kAny` wildcard, then the int-to-float
widening, otherwise incompatible. -/
def AreDataTypesCompatible (output_type input_type : DataType) : Bool :=
  if input_type = output_type then true
  else if input_type = DataType.kNone then false
  else if input_type = DataType.kAny then true
  else if output_type = DataType.kInt ∧ input_type = DataType.kFloat then true
  else false

/-- The list overload `NodeParam::AreDataTypesCompatible(output_type,
input_types)` (param.cpp lines 125-134): linear scan returning true at the
first compatible member. -/
def AreDataTypesCompatibleList (output_type : DataType) : List DataType → Bool
  | [] => false
  | t :: rest =>
      if AreDataTypesCompatible output_type t then true
      else AreDataTypesCompatibleList output_type rest

/-- A `NodeEdge` (edge.h): references exactly one output parameter and one
input parameter, here by their numeric parameter identifiers. -/
structure NodeEdge where
  output : Nat
  input : Nat
  deriving DecidableEq, Repr

/-- Static configuration of the parameter graph: each output parameter's
fixed `data_type()`, each input parameter's accepted-type list
(`NodeInput::inputs_`, input.h), each parameter's owning Node
(`NodeParam::parent()`) and each Node's owning graph (`Node::parent()`).
None of these change during connect/disconnect operations. -/
structure GraphConfig where
  outType : Nat → DataType
  inTypes : Nat → List DataType
  outNode : Nat → Nat
  inNode : Nat → Nat
  nodeGraph : Nat → Nat

/-- Dynamic graph state: the arena of allocated edge handles (`edgeData`
below `nextEdge` is meaningful), each output parameter's `edges_` list,
each input parameter's `edges_` list, and each input parameter's cached
last-requested time `NodeParam::time_` (a rational in the source, modelled
as an integer; only the sentinel matters here). -/
structure St where
  edgeData : Nat → NodeEdge
  nextEdge : Nat
  outEdges : Nat → List Nat
  inEdges : Nat → List Nat
  cachedTime : Nat → Int

/-- Modelled from the spec: `NodeInput::can_accept_type` (input.cpp is not
in the source excerpt; only its declaration in input.h is).  Per the spec,
a type can be connected iff it is compatible with at least one entry of
the input's accepted-type list, which is exactly the list overload
`AreDataTypesCompatible(type, inputs_)` from param.cpp. -/
def can_accept_type (cfg : GraphConfig) (input : Nat) (t : DataType) : Bool :=
  AreDataTypesCompatibleList t (cfg.inTypes input)

/-- The body of `NodeParam::DisconnectEdge(NodeEdgePtr)` (param.cpp lines
179-196): under both endpoint Nodes' locks (no-ops in this sequential
model), `removeAll` the edge from the output's and the input's `edges_`
lists and clear the input's cached value (`time_ = -1`). -/
def DisconnectEdge (s : St) (e : Nat) : St :=
  { s with
    outEdges := fun o =>
      if o = (s.edgeData e).output then (s.outEdges o).filter (fun x => x != e)
      else s.outEdges o,
    inEdges := fun i =>
      if i = (s.edgeData e).input then (s.inEdges i).filter (fun x => x != e)
      else s.inEdges i,
    cachedTime := fun i =>
      if i = (s.edgeData e).input then -1 else s.cachedTime i }

/-- `NodeParam::DisconnectForNewOutput` (param.cpp lines 209-221): if the
input's `edges_` list is non-empty, disconnect its first edge and return
it, otherwise return null. -/
def DisconnectForNewOutput (s : St) (input : Nat) : Option Nat × St :=
  match s.inEdges input with
  | [] => (none, s)
  | e :: _ => (some e, DisconnectEdge s e)

/-- The duplicate scan inside `NodeParam::ConnectEdge` (param.cpp lines
142-146): `foreach existing in input->edges()` checking whether some
existing edge's output is the requested output. -/
def hasEdgeFromOutput (s : St) (output : Nat) : List Nat → Bool
  | [] => false
  | e :: rest =>
      if (s.edgeData e).output = output then true
      else hasEdgeFromOutput s output rest

/-- The locked tail of `NodeParam::ConnectEdge` (param.cpp lines 160-176):
allocate a fresh edge (`std::make_shared<NodeEdge>(output, input)`),
append it to both endpoints' `edges_` lists and clear the input's cached
value, all under both Nodes' locks (no-ops in this sequential model). -/
def AppendEdge (s : St) (output input : Nat) : St :=
  { edgeData := fun e => if e = s.nextEdge then ⟨output, input⟩ else s.edgeData e,
    nextEdge := s.nextEdge + 1,
    outEdges := fun o =>
      if o = output then s.outEdges o ++ [s.nextEdge] else s.outEdges o,
    inEdges := fun i =>
      if i = input then s.inEdges i ++ [s.nextEdge] else s.inEdges i,
    cachedTime := fun i => if i = input then -1 else s.cachedTime i }

/-- The checks and mutation of `NodeParam::ConnectEdge` after the initial
`DisconnectForNewOutput` call (param.cpp lines 142-176): duplicate scan of
the input's (post-disconnect) edge list, type-compatibility check via
`can_accept_type`, same-graph check, then the locked append. -/
def ConnectEdgeChecked (cfg : GraphConfig) (s1 : St) (output input : Nat) :
    Option Nat × St :=
  if hasEdgeFromOutput s1 output (s1.inEdges input) = true then (none, s1)
  else if can_accept_type cfg input (cfg.outType output) = false then (none, s1)
  else if cfg.nodeGraph (cfg.outNode output) ≠ cfg.nodeGraph (cfg.inNode input) then
    (none, s1)
  else (some s1.nextEdge, AppendEdge s1 output input)

/-- `NodeParam::ConnectEdge(output, input)` (param.cpp lines 136-177):
first unconditionally calls `DisconnectForNewOutput(input)`, then runs the
duplicate/compatibility/graph checks and, when all pass, the locked
append.  Returns the created edge or null. -/
def ConnectEdge (cfg : GraphConfig) (s : St) (output input : Nat) :
    Option Nat × St :=
  ConnectEdgeChecked cfg (DisconnectForNewOutput s input).2 output input

/-- The linear scan of `NodeParam::DisconnectEdge(output, input)`
(param.cpp lines 198-207): first edge in the output's `edges_` list whose
input is the requested input. -/
def findEdgeTo (s : St) (input : Nat) : List Nat → Option Nat
  | [] => none
  | e :: rest =>
      if (s.edgeData e).input = input then some e
      else findEdgeTo s input rest

/-- `NodeParam::DisconnectEdge(NodeOutput*, NodeInput*)` (param.cpp lines
198-207): scan the output's edge list for an edge to this input,
disconnect it if found (then break), otherwise do nothing. -/
def DisconnectEdgeOI (s : St) (output input : Nat) : St :=
  match findEdgeTo s input (s.outEdges output) with
  | some e => DisconnectEdge s e
  | none => s

/-- An editing operation of the connection protocol. -/
inductive Op where
  | connect (output input : Nat)
  | disconnect (edge : Nat)
  | disconnectOI (output input : Nat)

/-- One editing operation applied to a state. -/
def step (cfg : GraphConfig) (s : St) : Op → St
  | .connect o i => (ConnectEdge cfg s o i).2
  | .disconnect e => DisconnectEdge s e
  | .disconnectOI o i => DisconnectEdgeOI s o i

/-- A sequence of editing operations applied in order. -/
def run (cfg : GraphConfig) (s : St) : List Op → St
  | [] => s
  | op :: ops => run cfg (step cfg s op) ops

/-- The C++ value types dispatched to `ValueToBytesInternal<T>` by
`NodeParam::ValueToBytes` (param.cpp lines 249-276). -/
inductive CppType where
  | cint
  | cfloat
  | qcolor
  | qstring
  | cbool
  | qmatrix4x4
  | crational
  | qvector2d
  | qvector3d
  | qvector4d
  deriving DecidableEq, Repr

/-- `NodeParam::ValueToBytes` (param.cpp lines 249-276): dispatch on the
data type to `ValueToBytesInternal<T>` with the matching C++ type; the
types with no persistent input (`kNone`, `kTexture`, `kBlock`, `kTrack`,
`kAny`) fall through to `return QByteArray()`, the empty byte sequence.
The raw `memcpy`-based serializer `ValueToBytesInternal` is kept abstract
as the `internal` argument (its output for the dispatched cases is
irrelevant to the properties proved here). -/
def ValueToBytes {Variant : Type} (internal : CppType → Variant → List Nat)
    (type : DataType) (value : Variant) : List Nat :=
  match type with
  | .kInt => internal .cint value
  | .kFloat => internal .cfloat value
  | .kColor => internal .qcolor value
  | .kString => internal .qstring value
  | .kBoolean => internal .cbool value
  | .kFont => internal .qstring value
  | .kFile => internal .qstring value
  | .kMatrix => internal .qmatrix4x4 value
  | .kFootage => internal .cfloat value
  | .kRational => internal .crational value
  | .kVec2 => internal .qvector2d value
  | .kVec3 => internal .qvector3d value
  | .kVec4 => internal .qvector4d value
  | .kNone => []
  | .kTexture => []
  | .kBlock => []
  | .kTrack => []
  | .kAny => []

/-- The `Footage::Status` enumeration (footage.h lines 43-48). -/
inductive FootageStatus where
  | kUnprobed
  | kUnindexed
  | kReady
  | kInvalid
  deriving DecidableEq, Repr

/-- A `Footage` media record (footage.h): filename, stream metadata list
(descriptors kept abstract as naturals), probing status and the attached
decoder identifier string. -/
structure Footage where
  filename : String
  streams : List Nat
  status : FootageStatus
  decoder : String
  deriving DecidableEq, Repr

/-- Modelled from the spec: `Footage::Clear` (footage.cpp is not in the
source excerpt; only its declaration in footage.h is).  Per the header
doc, it resets the Footage to its freshly created state, keeping the
filename: streams emptied, status back to unprobed, no attached decoder. -/
def Footage.Clear (f : Footage) : Footage :=
  { f with streams := [], status := .kUnprobed, decoder := "" }

/-- A decoder candidate as seen by `Decoder::ProbeMedia`: its stable
string identifier (`Decoder::id()`) and its `Probe` function, which
returns acceptance and the possibly updated Footage record.  The concrete
decoders (OIIODecoder, FFmpegDecoder) are external collaborators whose
sources are outside the excerpt, so they stay abstract. -/
structure MediaDecoder where
  id : String
  probe : Footage → Bool × Footage

/-- `ReceiveListOfAllDecoders` (decoder.cpp lines 62-72): the fixed
priority list for probing, the specialized still-image OIIO decoder first
and the generic multi-format FFmpeg decoder last. -/
def ReceiveListOfAllDecoders (oiio ffmpeg : MediaDecoder) : List MediaDecoder :=
  [oiio, ffmpeg]

/-- The probing loop of `Decoder::ProbeMedia` (decoder.cpp lines 95-117):
pass the Footage through each candidate's `Probe` in order; at the first
acceptance set the status to Ready, attach that decoder's identifier, and
return true; if every candidate rejects, set the status to Invalid, clear
the decoder identifier, and return false. -/
def ProbeLoop : List MediaDecoder → Footage → Bool × Footage
  | [], f => (false, { f with status := .kInvalid, decoder := "" })
  | d :: rest, f =>
      let r := d.probe f
      if r.1 = true then (true, { r.2 with status := .kReady, decoder := d.id })
      else ProbeLoop rest r.2

/-- `Decoder::ProbeMedia` (decoder.cpp lines 74-118): reject an empty
filename, then a non-existent file (filesystem existence kept abstract as
the `fileExists` argument), both before touching the record; otherwise
`Clear` the Footage and run the candidates in priority order. -/
def ProbeMedia (fileExists : String → Bool) (oiio ffmpeg : MediaDecoder)
    (f : Footage) : Bool × Footage :=
  if f.filename = "" then (false, f)
  else if fileExists f.filename = false then (false, f)
  else ProbeLoop (ReceiveListOfAllDecoders oiio ffmpeg) f.Clear

/-! Projection lemmas for the two mutating operations. -/

theorem disconnect_edgeData (s : St) (e a : Nat) :
    (DisconnectEdge s e).edgeData a = s.edgeData a := rfl

theorem disconnect_nextEdge (s : St) (e : Nat) :
    (DisconnectEdge s e).nextEdge = s.nextEdge := rfl

theorem disconnect_outEdges (s : St) (e o : Nat) :
    (DisconnectEdge s e).outEdges o =
      if o = (s.edgeData e).output then (s.outEdges o).filter (fun x => x != e)
      else s.outEdges o := rfl

theorem disconnect_inEdges (s : St) (e i : Nat) :
    (DisconnectEdge s e).inEdges i =
      if i = (s.edgeData e).input then (s.inEdges i).filter (fun x => x != e)
      else s.inEdges i := rfl

theorem disconnect_cachedTime (s : St) (e i : Nat) :
    (DisconnectEdge s e).cachedTime i =
      if i = (s.edgeData e).input then -1 else s.cachedTime i := rfl

theorem append_edgeData (s : St) (o i a : Nat) :
    (AppendEdge s o i).edgeData a =
      if a = s.nextEdge then ⟨o, i⟩ else s.edgeData a := rfl

theorem append_nextEdge (s : St) (o i : Nat) :
    (AppendEdge s o i).nextEdge = s.nextEdge + 1 := rfl

theorem append_outEdges (s : St) (o i p : Nat) :
    (AppendEdge s o i).outEdges p =
      if p = o then s.outEdges p ++ [s.nextEdge] else s.outEdges p := rfl

theorem append_inEdges (s : St) (o i p : Nat) :
    (AppendEdge s o i).inEdges p =
      if p = i then s.inEdges p ++ [s.nextEdge] else s.inEdges p := rfl

theorem append_cachedTime (s : St) (o i p : Nat) :
    (AppendEdge s o i).cachedTime p =
      if p = i then -1 else s.cachedTime p := rfl

theorem mem_filter_ne {l : List Nat} {a e : Nat} :
    a ∈ l.filter (fun x => x != e) ↔ a ∈ l ∧ a ≠ e := by
  simp [List.mem_filter]

theorem mem_disconnect_outEdges {s : St} {e o a : Nat} :
    a ∈ (DisconnectEdge s e).outEdges o ↔
      a ∈ s.outEdges o ∧ (o = (s.edgeData e).output → a ≠ e) := by
  rw [disconnect_outEdges]
  split_ifs with h
  · simp [mem_filter_ne, h]
  · simp [h]

theorem mem_disconnect_inEdges {s : St} {e i a : Nat} :
    a ∈ (DisconnectEdge s e).inEdges i ↔
      a ∈ s.inEdges i ∧ (i = (s.edgeData e).input → a ≠ e) := by
  rw [disconnect_inEdges]
  split_ifs with h
  · simp [mem_filter_ne, h]
  · simp [h]

theorem mem_append_outEdges {s : St} {o i p a : Nat} :
    a ∈ (AppendEdge s o i).outEdges p ↔
      a ∈ s.outEdges p ∨ (p = o ∧ a = s.nextEdge) := by
  rw [append_outEdges]
  split_ifs with h
  · simp [h]
  · simp [h]

theorem mem_append_inEdges {s : St} {o i p a : Nat} :
    a ∈ (AppendEdge s o i).inEdges p ↔
      a ∈ s.inEdges p ∨ (p = i ∧ a = s.nextEdge) := by
  rw [append_inEdges]
  split_ifs with h
  · simp [h]
  · simp [h]

/-- Well-formedness of a graph state: every edge handle stored in some
parameter's list has been allocated, is stored only at its own endpoints,
and is present on its output's side iff it is present on its input's side
(the shared-ownership invariant of `NodeEdgePtr`). -/
structure WF (s : St) : Prop where
  out_lt : ∀ o a, a ∈ s.outEdges o → a < s.nextEdge
  in_lt : ∀ i a, a ∈ s.inEdges i → a < s.nextEdge
  out_correct : ∀ o a, a ∈ s.outEdges o → (s.edgeData a).output = o
  in_correct : ∀ i a, a ∈ s.inEdges i → (s.edgeData a).input = i
  twoSided : ∀ a, (a ∈ s.outEdges ((s.edgeData a).output) ↔
    a ∈ s.inEdges ((s.edgeData a).input))

theorem WF.disconnect {s : St} (h : WF s) (e : Nat) : WF (DisconnectEdge s e) := by
  constructor
  · intro o a ha
    rw [mem_disconnect_outEdges] at ha
    exact h.out_lt o a ha.1
  · intro i a ha
    rw [mem_disconnect_inEdges] at ha
    exact h.in_lt i a ha.1
  · intro o a ha
    rw [mem_disconnect_outEdges] at ha
    exact h.out_correct o a ha.1
  · intro i a ha
    rw [mem_disconnect_inEdges] at ha
    exact h.in_correct i a ha.1
  · intro a
    rw [disconnect_edgeData, mem_disconnect_outEdges, mem_disconnect_inEdges]
    by_cases hae : a = e
    · subst hae
      simp
    · simp [hae, h.twoSided a]

theorem WF.append {s : St} (h : WF s) (o i : Nat) : WF (AppendEdge s o i) := by
  constructor
  · intro p a ha
    rw [mem_append_outEdges] at ha
    rw [append_nextEdge]
    rcases ha with ha | ⟨_, ha⟩
    · exact Nat.lt_succ_of_lt (h.out_lt p a ha)
    · omega
  · intro p a ha
    rw [mem_append_inEdges] at ha
    rw [append_nextEdge]
    rcases ha with ha | ⟨_, ha⟩
    · exact Nat.lt_succ_of_lt (h.in_lt p a ha)
    · omega
  · intro p a ha
    rw [mem_append_outEdges] at ha
    rw [append_edgeData]
    rcases ha with ha | ⟨hp, ha⟩
    · rw [if_neg (Nat.ne_of_lt (h.out_lt p a ha))]
      exact h.out_correct p a ha
    · rw [if_pos ha]
      exact hp.symm
  · intro p a ha
    rw [mem_append_inEdges] at ha
    rw [append_edgeData]
    rcases ha with ha | ⟨hp, ha⟩
    · rw [if_neg (Nat.ne_of_lt (h.in_lt p a ha))]
      exact h.in_correct p a ha
    · rw [if_pos ha]
      exact hp.symm
  · intro a
    rw [append_edgeData]
    by_cases han : a = s.nextEdge
    · subst han
      rw [if_pos rfl, mem_append_outEdges, mem_append_inEdges]
      simp
    · rw [if_neg han, mem_append_outEdges, mem_append_inEdges]
      simp only [han, and_false, or_false]
      exact h.twoSided a

theorem WF.disconnectForNewOutput {s : St} (h : WF s) (input : Nat) :
    WF ((DisconnectForNewOutput s input).2) := by
  unfold DisconnectForNewOutput
  split
  · exact h
  · exact h.disconnect _

theorem WF.connect {s : St} (h : WF s) (cfg : GraphConfig) (o i : Nat) :
    WF ((ConnectEdge cfg s o i).2) := by
  have h1 : WF ((DisconnectForNewOutput s i).2) := h.disconnectForNewOutput i
  unfold ConnectEdge ConnectEdgeChecked
  split_ifs
  · exact h1
  · exact h1
  · exact h1
  · exact h1.append o i

theorem WF.disconnectOI {s : St} (h : WF s) (o i : Nat) :
    WF (DisconnectEdgeOI s o i) := by
  unfold DisconnectEdgeOI
  split
  · exact h.disconnect _
  · exact h

theorem WF.step {s : St} (h : WF s) (cfg : GraphConfig) (op : Op) :
    WF (step cfg s op) := by
  cases op with
  | connect o i => exact h.connect cfg o i
  | disconnect e => exact h.disconnect e
  | disconnectOI o i => exact h.disconnectOI o i

theorem WF.run {s : St} (h : WF s) (cfg : GraphConfig) (ops : List Op) :
    WF (run cfg s ops) := by
  induction ops generalizing s with
  | nil => exact h
  | cons op ops ih => exact ih (h.step cfg op)

/-! Concrete fixtures used by witnesses and counterexamples. -/

/-- Configuration in which every output has type Float and every input
accepts exactly Float, with all nodes in one graph. -/
def cfg0 : GraphConfig :=
  { outType := fun _ => DataType.kFloat
    inTypes := fun _ => [DataType.kFloat]
    outNode := fun _ => 0
    inNode := fun _ => 1
    nodeGraph := fun _ => 0 }

/-- Configuration like `cfg0` except that output parameter 0 produces a
String, which no input accepts. -/
def cfgA : GraphConfig :=
  { outType := fun o => if o = 0 then DataType.kString else DataType.kFloat
    inTypes := fun _ => [DataType.kFloat]
    outNode := fun _ => 0
    inNode := fun _ => 1
    nodeGraph := fun _ => 0 }

/-- The empty graph state: no edges anywhere. -/
def st0 : St :=
  { edgeData := fun _ => ⟨0, 0⟩
    nextEdge := 0
    outEdges := fun _ => []
    inEdges := fun _ => []
    cachedTime := fun _ => 0 }

/-- A state with a single edge (handle 0) from output 1 to input 0. -/
def stA : St :=
  { edgeData := fun _ => ⟨1, 0⟩
    nextEdge := 1
    outEdges := fun o => if o = 1 then [0] else []
    inEdges := fun i => if i = 0 then [0] else []
    cachedTime := fun _ => 5 }

/-- A state with a single edge (handle 0) from output 0 to input 0. -/
def stB : St :=
  { edgeData := fun _ => ⟨0, 0⟩
    nextEdge := 1
    outEdges := fun o => if o = 0 then [0] else []
    inEdges := fun i => if i = 0 then [0] else []
    cachedTime := fun _ => 5 }

theorem st0_wf : WF st0 := by
  constructor <;> intros <;> simp_all [st0]

/-! Claim theorems. -/

/-- C2 counterexample: the claim requires `Compatible(o, i)` to be false
whenever `i == None`, but the source checks type equality first, so the
pair (None, None) is compatible. -/
theorem compatible_none_none_counterexample :
    AreDataTypesCompatible DataType.kNone DataType.kNone = true := by decide

/-- C2 (amended): for all DataType pairs (o, i), `Compatible(o, i)` is
true iff o = i, or i = Any, or (o = Int and i = Float); and it is false
whenever i = None and o is a different type (the pair (None, None) falls
under the equality rule). -/
theorem compatible_characterization (o i : DataType) :
    (AreDataTypesCompatible o i = true ↔
      (o = i ∨ i = DataType.kAny ∨ (o = DataType.kInt ∧ i = DataType.kFloat))) ∧
    (i = DataType.kNone → o ≠ DataType.kNone → AreDataTypesCompatible o i = false) := by
  revert o i
  decide

/-- C2 witness: the amended characterization applied at the concrete pair
(Int, None), whose hypotheses hold. -/
theorem compatible_characterization_witness :
    AreDataTypesCompatible DataType.kInt DataType.kNone = false :=
  (compatible_characterization DataType.kInt DataType.kNone).2 rfl (by decide)

/-- C1 counterexample: a rejected `ConnectEdge` call does not always leave
the graph unchanged.  With output 0 of type String (accepted by no input)
and input 0 already connected to output 1, the call is rejected (returns
null) yet input 0's edge list went from one edge to empty, because the
single-connection disconnect runs before the compatibility check. -/
theorem connectEdge_rejection_mutates_counterexample :
    (ConnectEdge cfgA stA 0 0).1 = none ∧
    stA.inEdges 0 = [0] ∧
    (ConnectEdge cfgA stA 0 0).2.inEdges 0 = [] :=
  ⟨rfl, rfl, rfl⟩

/-- C1 (amended): every `ConnectEdge` call rejected by the
type-compatibility check or the same-graph check returns no edge, and the
resulting state is exactly the state after the initial
`DisconnectForNewOutput` side effect; in particular, when the input had no
existing edge, the graph state is completely unchanged. -/
theorem connectEdge_rejection_returns_null (cfg : GraphConfig) (s : St)
    (o i : Nat)
    (h : can_accept_type cfg i (cfg.outType o) = false ∨
      cfg.nodeGraph (cfg.outNode o) ≠ cfg.nodeGraph (cfg.inNode i)) :
    (ConnectEdge cfg s o i).1 = none ∧
    (ConnectEdge cfg s o i).2 = (DisconnectForNewOutput s i).2 ∧
    (s.inEdges i = [] → (ConnectEdge cfg s o i).2 = s) := by
  have key : ConnectEdge cfg s o i = (none, (DisconnectForNewOutput s i).2) := by
    unfold ConnectEdge ConnectEdgeChecked
    split_ifs with h1 h2 h3
    · rfl
    · rfl
    · rfl
    · rcases h with h | h
      · exact absurd h h2
      · exact absurd h h3
  refine ⟨by rw [key], by rw [key], ?_⟩
  intro hie
  rw [key]
  show (DisconnectForNewOutput s i).2 = s
  unfold DisconnectForNewOutput
  rw [hie]

/-- C1 witness: the amended theorem applied at the empty state, where a
String-producing output is rejected by a Float-only input and the state
comes back untouched. -/
theorem connectEdge_rejection_returns_null_witness :
    (ConnectEdge cfgA st0 0 0).1 = none ∧
    (ConnectEdge cfgA st0 0 0).2 = (DisconnectForNewOutput st0 0).2 ∧
    (st0.inEdges 0 = [] → (ConnectEdge cfgA st0 0 0).2 = st0) :=
  connectEdge_rejection_returns_null cfgA st0 0 0 (Or.inl (by decide))

/-- C3: evaluating `ConnectEdge` at a state where an edge from exactly
this output to this input already exists.  Contrary to the claim (and to
the source's own comment that the scan makes sure the new edge is not a
duplicate of an existing one), the call is not a no-op: because
`DisconnectForNewOutput` removes the input's existing edge before the
duplicate scan runs, the scan sees an empty list, a fresh edge (handle 1)
is created and returned, and the input's edge list changes. -/
theorem connectEdge_duplicate_reconnects :
    stB.edgeData 0 = ⟨0, 0⟩ ∧
    stB.inEdges 0 = [0] ∧
    stB.outEdges 0 = [0] ∧
    (ConnectEdge cfg0 stB 0 0).1 = some 1 ∧
    (ConnectEdge cfg0 stB 0 0).2.inEdges 0 = [1] :=
  ⟨rfl, rfl, rfl, rfl, rfl⟩

/-- C4: connecting a new output to a single-connection input that already
holds exactly one edge `e` from a different output replaces it: the call
succeeds, afterward the input holds exactly the one fresh edge, and the
prior edge is gone from both the input's list and its old output's
list. -/
theorem connectEdge_single_connection_replace (cfg : GraphConfig) (s : St)
    (o i e : Nat)
    (he : s.inEdges i = [e])
    (hin : (s.edgeData e).input = i)
    (ho : (s.edgeData e).output ≠ o)
    (hlt : e < s.nextEdge)
    (hacc : can_accept_type cfg i (cfg.outType o) = true)
    (hgr : cfg.nodeGraph (cfg.outNode o) = cfg.nodeGraph (cfg.inNode i)) :
    (ConnectEdge cfg s o i).1 = some s.nextEdge ∧
    (ConnectEdge cfg s o i).2.inEdges i = [s.nextEdge] ∧
    e ∉ (ConnectEdge cfg s o i).2.inEdges i ∧
    e ∉ (ConnectEdge cfg s o i).2.outEdges ((s.edgeData e).output) := by
  have hs1 : (DisconnectForNewOutput s i).2 = DisconnectEdge s e := by
    unfold DisconnectForNewOutput
    rw [he]
  have hie : (DisconnectEdge s e).inEdges i = [] := by
    rw [disconnect_inEdges, hin, if_pos rfl, he]
    simp
  have hkey : ConnectEdge cfg s o i =
      (some s.nextEdge, AppendEdge (DisconnectEdge s e) o i) := by
    unfold ConnectEdge ConnectEdgeChecked
    rw [hs1, hie]
    simp [hasEdgeFromOutput, hacc, hgr, disconnect_nextEdge]
  rw [hkey]
  refine ⟨rfl, ?_, ?_, ?_⟩
  · show (AppendEdge (DisconnectEdge s e) o i).inEdges i = [s.nextEdge]
    rw [append_inEdges, if_pos rfl, hie, disconnect_nextEdge]
    rfl
  · show e ∉ (AppendEdge (DisconnectEdge s e) o i).inEdges i
    rw [append_inEdges, if_pos rfl, hie, disconnect_nextEdge]
    simp
    omega
  · show e ∉ (AppendEdge (DisconnectEdge s e) o i).outEdges ((s.edgeData e).output)
    rw [append_outEdges, if_neg ho]
    rw [mem_disconnect_outEdges]
    simp

/-- C4 witness: in `stA`, input 0 holds exactly edge 0 coming from output
1; connecting the (compatible) output 0 replaces it with the fresh edge
1. -/
theorem connectEdge_single_connection_replace_witness :
    (ConnectEdge cfg0 stA 0 0).1 = some stA.nextEdge ∧
    (ConnectEdge cfg0 stA 0 0).2.inEdges 0 = [stA.nextEdge] ∧
    0 ∉ (ConnectEdge cfg0 stA 0 0).2.inEdges 0 ∧
    0 ∉ (ConnectEdge cfg0 stA 0 0).2.outEdges ((stA.edgeData 0).output) :=
  connectEdge_single_connection_replace cfg0 stA 0 0 0 rfl rfl
    (by decide) (by decide) (by decide) rfl

/-- C5: after any sequence of connect/disconnect operations run from a
well-formed state, every edge handle is present in its output's edge list
iff it is present in its input's edge list (two-sided membership); and
`DisconnectEdge` itself removes an edge from both of its endpoints'
lists, never leaving it on one side only. -/
theorem edge_membership_two_sided :
    (∀ cfg s ops a, WF s →
      (a ∈ (run cfg s ops).outEdges (((run cfg s ops).edgeData a).output) ↔
       a ∈ (run cfg s ops).inEdges (((run cfg s ops).edgeData a).input))) ∧
    (∀ s e, e ∉ (DisconnectEdge s e).outEdges ((s.edgeData e).output) ∧
      e ∉ (DisconnectEdge s e).inEdges ((s.edgeData e).input)) := by
  constructor
  · intro cfg s ops a h
    exact (h.run cfg ops).twoSided a
  · intro s e
    constructor
    · rw [mem_disconnect_outEdges]
      simp
    · rw [mem_disconnect_inEdges]
      simp

/-- C5 witness: the two-sidedness established for edge handle 0 after
running a connect followed by a disconnect from the empty state. -/
theorem edge_membership_two_sided_witness :
    0 ∈ (run cfg0 st0 [Op.connect 0 0, Op.disconnect 0]).outEdges
        (((run cfg0 st0 [Op.connect 0 0, Op.disconnect 0]).edgeData 0).output) ↔
    0 ∈ (run cfg0 st0 [Op.connect 0 0, Op.disconnect 0]).inEdges
        (((run cfg0 st0 [Op.connect 0 0, Op.disconnect 0]).edgeData 0).input) :=
  edge_membership_two_sided.1 cfg0 st0 [Op.connect 0 0, Op.disconnect 0] 0 st0_wf

/-- C6: immediately after an edge is removed by `DisconnectEdge`, the
touched input's cached last-requested time is the sentinel -1, and
immediately after `ConnectEdge` successfully adds an edge, the connected
input's cached time is the sentinel -1; the sentinel can never equal a
valid (nonnegative) request time. -/
theorem cache_invalidated_on_edge_mutation :
    (∀ s e, (DisconnectEdge s e).cachedTime ((s.edgeData e).input) = -1) ∧
    (∀ cfg s o i, (ConnectEdge cfg s o i).1.isSome = true →
      (ConnectEdge cfg s o i).2.cachedTime i = -1) ∧
    (∀ t : Int, 0 ≤ t → (-1 : Int) ≠ t) := by
  refine ⟨?_, ?_, ?_⟩
  · intro s e
    rw [disconnect_cachedTime, if_pos rfl]
  · intro cfg s o i h
    unfold ConnectEdge ConnectEdgeChecked at h ⊢
    split_ifs at h ⊢
    · simp at h
    · simp at h
    · simp at h
    · show (AppendEdge ((DisconnectForNewOutput s i).2) o i).cachedTime i = -1
      rw [append_cachedTime, if_pos rfl]
  · intro t ht
    omega

/-- C6 witness: the successful replacement connect in `stA` leaves input
0's cached time at the sentinel. -/
theorem cache_invalidated_on_edge_mutation_witness :
    (ConnectEdge cfg0 stA 0 0).2.cachedTime 0 = -1 :=
  cache_invalidated_on_edge_mutation.2.1 cfg0 stA 0 0 (by decide)

/-- C7: `ProbeMedia` uses a fixed priority list with the specialized
still-image decoder (OIIO) strictly before the generic multi-format
decoder (FFmpeg); it stops at the first candidate whose Probe accepts
(the result then carries status Ready and that decoder's identifier,
independently of any later candidate); and when every candidate rejects,
it returns false with the record's status set to Invalid. -/
theorem probeMedia_priority_and_status :
    (∀ oiio ffmpeg, ReceiveListOfAllDecoders oiio ffmpeg = [oiio, ffmpeg]) ∧
    (∀ fe oiio ffmpeg f, f.filename ≠ "" → fe f.filename = true →
      (oiio.probe f.Clear).1 = true →
      ProbeMedia fe oiio ffmpeg f =
        (true, { (oiio.probe f.Clear).2 with
                  status := .kReady, decoder := oiio.id })) ∧
    (∀ fe oiio ffmpeg f, f.filename ≠ "" → fe f.filename = true →
      (oiio.probe f.Clear).1 = false →
      (ffmpeg.probe (oiio.probe f.Clear).2).1 = true →
      ProbeMedia fe oiio ffmpeg f =
        (true, { (ffmpeg.probe (oiio.probe f.Clear).2).2 with
                  status := .kReady, decoder := ffmpeg.id })) ∧
    (∀ fe oiio ffmpeg f, f.filename ≠ "" → fe f.filename = true →
      (oiio.probe f.Clear).1 = false →
      (ffmpeg.probe (oiio.probe f.Clear).2).1 = false →
      (ProbeMedia fe oiio ffmpeg f).1 = false ∧
      (ProbeMedia fe oiio ffmpeg f).2.status = FootageStatus.kInvalid) := by
  refine ⟨fun _ _ => rfl, ?_, ?_, ?_⟩
  · intro fe oiio ffmpeg f h1 h2 h3
    simp [ProbeMedia, ReceiveListOfAllDecoders, ProbeLoop, h1, h2, h3]
  · intro fe oiio ffmpeg f h1 h2 h3 h4
    simp [ProbeMedia, ReceiveListOfAllDecoders, ProbeLoop, h1, h2, h3, h4]
  · intro fe oiio ffmpeg f h1 h2 h3 h4
    simp [ProbeMedia, ReceiveListOfAllDecoders, ProbeLoop, h1, h2, h3, h4]

/-- A still-image decoder stand-in accepting every file, recording one
stream. -/
def decA : MediaDecoder :=
  { id := "oiio", probe := fun f => (true, { f with streams := [7] }) }

/-- A generic decoder stand-in rejecting every file. -/
def decB : MediaDecoder :=
  { id := "ffmpeg", probe := fun f => (false, f) }

/-- A fresh media record with a nonempty filename. -/
def foot0 : Footage :=
  { filename := "clip.mov", streams := [], status := .kUnprobed, decoder := "" }

/-- A media record with prior metadata, used to observe non-mutation. -/
def foot1 : Footage :=
  { filename := "missing.mov", streams := [3], status := .kReady,
    decoder := "ffmpeg" }

/-- C7 witness: probing `foot0` with an accepting first candidate stops
there, marks the record Ready and records that candidate's identifier. -/
theorem probeMedia_priority_and_status_witness :
    ProbeMedia (fun _ => true) decA decB foot0 =
      (true, { (decA.probe foot0.Clear).2 with
                status := .kReady, decoder := decA.id }) :=
  probeMedia_priority_and_status.2.1 (fun _ => true) decA decB foot0
    (by decide) rfl rfl

/-- C8: the overload `DisconnectEdge(output, input)` is a no-op when the
output's edge list contains no edge to the requested input: the state
(in particular every edge list) is returned unchanged. -/
theorem disconnectEdge_nonexistent_noop (s : St) (o i : Nat)
    (h : ∀ e ∈ s.outEdges o, (s.edgeData e).input ≠ i) :
    DisconnectEdgeOI s o i = s := by
  have hnone : ∀ l : List Nat, (∀ e ∈ l, (s.edgeData e).input ≠ i) →
      findEdgeTo s i l = none := by
    intro l hl
    induction l with
    | nil => rfl
    | cons a t ih =>
        unfold findEdgeTo
        rw [if_neg (hl a (List.mem_cons_self a t))]
        exact ih fun e he => hl e (List.mem_cons_of_mem a he)
  unfold DisconnectEdgeOI
  rw [hnone (s.outEdges o) h]

/-- C8 witness: disconnecting between output 0 and input 0 in the empty
state changes nothing. -/
theorem disconnectEdge_nonexistent_noop_witness :
    DisconnectEdgeOI st0 0 0 = st0 :=
  disconnectEdge_nonexistent_noop st0 0 0 (by intro e he; simp [st0] at he)

/-- C9: `ValueToBytes` returns the empty byte sequence for every value of
the five types with no persistent form (None, Texture, Block, Track,
Any), whatever the raw serializer does on the other types. -/
theorem valueToBytes_empty_for_unpersisted {Variant : Type}
    (internal : CppType → Variant → List Nat) (v : Variant) :
    ValueToBytes internal DataType.kNone v = [] ∧
    ValueToBytes internal DataType.kTexture v = [] ∧
    ValueToBytes internal DataType.kBlock v = [] ∧
    ValueToBytes internal DataType.kTrack v = [] ∧
    ValueToBytes internal DataType.kAny v = [] :=
  ⟨rfl, rfl, rfl, rfl, rfl⟩

/-- C10: when the record's filename is empty or names a file that does
not exist, `ProbeMedia` returns false with the record completely
untouched: no Clear, no Invalid status, no decoder change. -/
theorem probeMedia_invalid_filename_untouched (fe : String → Bool)
    (oiio ffmpeg : MediaDecoder) (f : Footage)
    (h : f.filename = "" ∨ fe f.filename = false) :
    ProbeMedia fe oiio ffmpeg f = (false, f) := by
  unfold ProbeMedia
  rcases h with h | h
  · rw [if_pos h]
  · by_cases h1 : f.filename = ""
    · rw [if_pos h1]
    · rw [if_neg h1, if_pos h]

/-- C10 witness: probing `foot1` when its file does not exist returns
false and leaves its Ready status, stream list and decoder identifier
exactly as they were. -/
theorem probeMedia_invalid_filename_untouched_witness :
    ProbeMedia (fun _ => false) decA decB foot1 = (false, foot1) :=
  probeMedia_invalid_filename_untouched (fun _ => false) decA decB foot1
    (Or.inr rfl)

end Olive
